import Mathlib

/-!
# Verification of the translation-checker core

A shallow embedding, in Lean 4, of the core of the `translation-checker`
repository: the resilient LLM API client (`src/core/api_client.py`) and the
job orchestrator (`src/core/checker.py`).  Pure string manipulation is
embedded as functions on `List Char` / `String`; Python dictionaries and JSON
values are embedded as an inductive `JVal`; Python exceptions are embedded as
an error type threaded through `Except`; the retry loops are embedded as
structural recursion over the list of per-attempt outcomes supplied by the
environment; the worker loop is embedded as a fold over the entry list that
records the trace of remote calls and interval sleeps.
-/

/-- Python exception classes that the embedded code can raise or catch. -/
inductive PyErr where
  | valueError
  | typeError
  | keyError
  | indexError
  | attributeError
  | jsonDecodeError
  deriving DecidableEq, Repr

/-- `json.JSONDecodeError` is a subclass of `ValueError`; the tuple
`(json.JSONDecodeError, ValueError, KeyError)` in `_parse_response` /
`_parse_batch_response` therefore catches exactly these. -/
def caughtByParseHandler : PyErr → Bool
  | .valueError => true
  | .keyError => true
  | .jsonDecodeError => true
  | _ => false

/-- Python `str.isspace` on the ASCII whitespace characters that `strip()`
removes. -/
def pyIsSpace (c : Char) : Bool :=
  c = ' ' || c = '\t' || c = '\n' || c = '\r' || c = '\x0b' || c = '\x0c'

/-- Strip matching characters from the right end of a list
(`str.rstrip` with a predicate). -/
def rstripBy (p : Char → Bool) (l : List Char) : List Char :=
  (l.reverse.dropWhile p).reverse

/-- Python `str.strip()` (no arguments): whitespace from both ends. -/
def pyStrip (l : List Char) : List Char :=
  rstripBy pyIsSpace (l.dropWhile pyIsSpace)

/-- Embedding of `LLMClient._build_url` (src/core/api_client.py lines 64-79):
`base_url.strip().rstrip("/")`, then return as-is when it already ends with
`/chat/completions`, append `/completions` when it ends with `/chat`, and
append `/chat/completions` otherwise. -/
def stripped_url (l : List Char) : List Char :=
  rstripBy (· = '/') (pyStrip l)

def buildUrlChars (l : List Char) : List Char :=
  if "/chat/completions".toList.isSuffixOf (stripped_url l) then stripped_url l
  else if "/chat".toList.isSuffixOf (stripped_url l) then
    stripped_url l ++ "/completions".toList
  else stripped_url l ++ "/chat/completions".toList

/-- `LLMClient._build_url` on strings. -/
def build_url (s : String) : String :=
  (buildUrlChars s.toList).asString

example : build_url "https://x/v1" = "https://x/v1/chat/completions" := by decide
example : build_url "https://x/v1/" = "https://x/v1/chat/completions" := by decide
example : build_url "https://x/v1/chat" = "https://x/v1/chat/completions" := by decide
example : build_url "https://x/v1/chat/completions" = "https://x/v1/chat/completions" := by decide
example : build_url "https://x/v1/chat/completions/" = "https://x/v1/chat/completions" := by decide

/-- JSON values as produced by `json.loads`, restricted to the fragment the
assessments exercise: null, booleans, integer numbers, strings, arrays and
objects (floats and `\uXXXX` escapes are outside the modelled fragment). -/
inductive JVal where
  | jnull
  | jbool (b : Bool)
  | jint (n : Int)
  | jstr (s : String)
  | jarr (xs : List JVal)
  | jobj (fields : List (String × JVal))
  deriving Repr

/-- Python dict assignment `d[k] = v`: replace the value at the first
occurrence of the key, keeping its position, else append. -/
def objSet (fields : List (String × JVal)) (k : String) (v : JVal) :
    List (String × JVal) :=
  match fields with
  | [] => [(k, v)]
  | (k', v') :: rest =>
      if k' = k then (k, v) :: rest else (k', v') :: objSet rest k v

/-- Python dict lookup `d[k]` (fields are duplicate-free by construction). -/
def objGet (fields : List (String × JVal)) (k : String) : Option JVal :=
  (fields.find? (fun p => p.1 = k)).map (·.2)

/-- Python `k in d.keys()`. -/
def objHasKey (fields : List (String × JVal)) (k : String) : Bool :=
  fields.any (fun p => p.1 = k)

/-- JSON insignificant whitespace. -/
def jsonWsChar (c : Char) : Bool :=
  c = ' ' || c = '\t' || c = '\n' || c = '\r'

/-- Skip JSON whitespace. -/
def skipWs (l : List Char) : List Char := l.dropWhile jsonWsChar

/-- Parse the body of a JSON string (opening quote already consumed),
returning the decoded characters and the remaining input. -/
def parseJStrChars : List Char → Option (List Char × List Char)
  | [] => none
  | c :: rest =>
    if c = '"' then some ([], rest)
    else if c = '\\' then
      match rest with
      | [] => none
      | e :: rest2 =>
        let esc : Option Char :=
          if e = '"' then some '"'
          else if e = '\\' then some '\\'
          else if e = '/' then some '/'
          else if e = 'n' then some '\n'
          else if e = 't' then some '\t'
          else if e = 'r' then some '\r'
          else if e = 'b' then some '\x08'
          else if e = 'f' then some '\x0c'
          else none
        match esc with
        | none => none
        | some ch => (parseJStrChars rest2).map (fun p => (ch :: p.1, p.2))
    else (parseJStrChars rest).map (fun p => (c :: p.1, p.2))

/-- Value of a digit string. -/
def natOfDigits (l : List Char) : Nat :=
  l.foldl (fun acc c => acc * 10 + (c.toNat - '0'.toNat)) 0

/-- Parse a JSON integer literal starting at `l` (already known to start with
`-` or a digit); rejects leading zeros and floats, per the modelled fragment. -/
def parseJInt (l : List Char) : Option (Int × List Char) :=
  let (neg, l') := match l with
    | '-' :: r => (true, r)
    | _ => (false, l)
  let digits := l'.takeWhile (·.isDigit)
  let rest := l'.dropWhile (·.isDigit)
  if digits.isEmpty then none
  else if digits.length > 1 && digits.headD '0' = '0' then none
  else match rest with
    | '.' :: _ => none
    | 'e' :: _ => none
    | 'E' :: _ => none
    | _ =>
      let n : Int := natOfDigits digits
      some (if neg then -n else n, rest)

mutual

/-- Recursive-descent JSON value, fuelled. -/
def parseVal : Nat → List Char → Option (JVal × List Char)
  | 0, _ => none
  | Nat.succ fuel, l =>
    match skipWs l with
    | [] => none
    | c :: rest =>
      if c = 'n' then
        if "ull".toList.isPrefixOf rest then some (.jnull, rest.drop 3) else none
      else if c = 't' then
        if "rue".toList.isPrefixOf rest then some (.jbool true, rest.drop 3) else none
      else if c = 'f' then
        if "alse".toList.isPrefixOf rest then some (.jbool false, rest.drop 4) else none
      else if c = '"' then
        (parseJStrChars rest).map (fun p => (.jstr p.1.asString, p.2))
      else if c = '[' then
        match skipWs rest with
        | ']' :: r => some (.jarr [], r)
        | r => (parseElems fuel r).map (fun p => (.jarr p.1, p.2))
      else if c = '\x7b' then
        match skipWs rest with
        | '\x7d' :: r => some (.jobj [], r)
        | r => (parseFields fuel r).map
            (fun p => (.jobj (p.1.foldl (fun acc q => objSet acc q.1 q.2) []), p.2))
      else if c = '-' || c.isDigit then
        (parseJInt (c :: rest)).map (fun p => (.jint p.1, p.2))
      else none

/-- Comma-separated array elements up to the closing bracket. -/
def parseElems : Nat → List Char → Option (List JVal × List Char)
  | 0, _ => none
  | Nat.succ fuel, l =>
    match parseVal fuel l with
    | none => none
    | some (v, r) =>
      match skipWs r with
      | ',' :: r2 => (parseElems fuel r2).map (fun p => (v :: p.1, p.2))
      | ']' :: r2 => some ([v], r2)
      | _ => none

/-- Comma-separated object members up to the closing brace. -/
def parseFields : Nat → List Char → Option (List (String × JVal) × List Char)
  | 0, _ => none
  | Nat.succ fuel, l =>
    match skipWs l with
    | '"' :: r =>
      match parseJStrChars r with
      | none => none
      | some (k, r2) =>
        match skipWs r2 with
        | ':' :: r3 =>
          match parseVal fuel r3 with
          | none => none
          | some (v, r4) =>
            match skipWs r4 with
            | ',' :: r5 =>
                (parseFields fuel r5).map (fun p => ((k.asString, v) :: p.1, p.2))
            | '\x7d' :: r5 => some ([(k.asString, v)], r5)
            | _ => none
        | _ => none
    | _ => none

end

/-- Embedding of `json.loads` (modelled fragment): parse one value and require
only whitespace after it. -/
def jloads (l : List Char) : Option JVal :=
  match parseVal (2 * l.length + 2) l with
  | some (v, rest) => if skipWs rest = [] then some v else none
  | none => none

example : jloads "[1, -2]".toList = some (.jarr [.jint 1, .jint (-2)]) := by rfl
example : jloads "not json".toList = none := by rfl

mutual

/-- Python `repr` on the JSON fragment (used by `str` on containers). -/
def pyRepr : JVal → String
  | .jnull => "None"
  | .jbool b => if b then "True" else "False"
  | .jint n => toString n
  | .jstr s => (Char.ofNat 39 :: s.toList ++ [Char.ofNat 39]).asString
  | .jarr xs => "[" ++ pyReprList xs ++ "]"
  | .jobj fs => "\x7b" ++ pyReprFields fs ++ "\x7d"

/-- Comma-joined reprs of array elements. -/
def pyReprList : List JVal → String
  | [] => ""
  | [x] => pyRepr x
  | x :: xs => pyRepr x ++ ", " ++ pyReprList xs

/-- Comma-joined reprs of object members. -/
def pyReprFields : List (String × JVal) → String
  | [] => ""
  | [(k, v)] => pyRepr (.jstr k) ++ ": " ++ pyRepr v
  | (k, v) :: fs => pyRepr (.jstr k) ++ ": " ++ pyRepr v ++ ", " ++ pyReprFields fs

end

/-- Python `str()` on a JSON value. -/
def pyStrOf : JVal → String
  | .jnull => "None"
  | .jbool b => if b then "True" else "False"
  | .jint n => toString n
  | .jstr s => s
  | v => pyRepr v

/-- Python `int()` on a string: strip whitespace, optional sign, digits. -/
def pyIntOfStrChars (l : List Char) : Option Int :=
  let core : List Char → Option Nat := fun r =>
    if !r.isEmpty && r.all (·.isDigit) then some (natOfDigits r) else none
  match pyStrip l with
  | '-' :: r => (core r).map (fun n => -(n : Int))
  | '+' :: r => (core r).map (fun n => (n : Int))
  | r => (core r).map (fun n => (n : Int))

/-- Python `int()` on a JSON value: ints pass through, bools become 0/1,
numeric strings are parsed (`ValueError` otherwise), and null / arrays /
objects raise `TypeError`. -/
def pyInt : JVal → Except PyErr Int
  | .jint n => .ok n
  | .jbool b => .ok (if b then 1 else 0)
  | .jstr s =>
    match pyIntOfStrChars s.toList with
    | some n => .ok n
    | none => .error .valueError
  | _ => .error .typeError

/-- Python `str.index`-style first-occurrence search (`None` = absent, which
`str.index` reports by raising `ValueError`). -/
def findSub (pat : List Char) : List Char → Option Nat
  | [] => if pat.isEmpty then some 0 else none
  | c :: rest =>
      if pat.isPrefixOf (c :: rest) then some 0
      else (findSub pat rest).map (· + 1)

/-- Embedding of `LLMClient._extract_json` (src/core/api_client.py lines
185-196): strip a ```json fenced block, else a bare ``` fenced block, else
return the content unchanged.  `content.index("```", start)` raises
`ValueError` when the opening fence has no closing fence. -/
def extract_json (content : List Char) : Except PyErr (List Char) :=
  match findSub "```json".toList content with
  | some i =>
    let start := i + 7
    match findSub "```".toList (content.drop start) with
    | some j => .ok (pyStrip ((content.drop start).take j))
    | none => .error .valueError
  | none =>
    match findSub "```".toList content with
    | some i =>
      let start := i + 3
      match findSub "```".toList (content.drop start) with
      | some j => .ok (pyStrip ((content.drop start).take j))
      | none => .error .valueError
    | none => .ok content

/-- The four fields a single-row parse must contain. -/
def requiredKeys : List String := ["score", "issues", "suggestion", "summary"]

/-- The degraded fallback result built at src/core/api_client.py lines
216-221; its `suggestion` holds the (fence-stripped) content. -/
def degradedResult (content : List Char) : List (String × JVal) :=
  [("score", .jint 0),
   ("issues", .jarr [.jstr "返回格式异常，无法解析"]),
   ("suggestion", .jstr content.asString),
   ("summary", .jstr "模型返回格式异常，请查看建议列中的原始输出")]

/-- The coercion applied to an accepted object (src/core/api_client.py lines
207-209 and 252-254): `score` is replaced by its `int()` value `n`, and a
non-list `issues` is replaced by the one-element list `[str(issues)]`. -/
def coerceScoreIssues (fields : List (String × JVal)) (n : Int) :
    List (String × JVal) :=
  let f1 := objSet fields "score" (.jint n)
  match objGet f1 "issues" with
  | some (.jarr _) => f1
  | some x => objSet f1 "issues" (.jarr [.jstr (pyStrOf x)])
  | none => f1

/-- Embedding of `LLMClient._parse_response` (src/core/api_client.py lines
198-221).  The `try` block catches only `(json.JSONDecodeError, ValueError,
KeyError)`: a `ValueError` from `_extract_json` is raised outside the `try`,
a non-dict payload makes `result.keys()` raise `AttributeError`, and a
null/array/object `score` makes `int()` raise `TypeError`; those propagate. -/
def parse_response (raw : String) : Except PyErr (List (String × JVal)) :=
  match extract_json raw.toList with
  | .error e => .error e
  | .ok content =>
    match jloads content with
    | none => .ok (degradedResult content)
    | some (.jobj fields) =>
      if requiredKeys.all (objHasKey fields) then
        match objGet fields "score" with
        | none => .ok (degradedResult content)
        | some sv =>
          match pyInt sv with
          | .error e =>
              if caughtByParseHandler e then .ok (degradedResult content)
              else .error e
          | .ok n => .ok (coerceScoreIssues fields n)
      else .ok (degradedResult content)
    | some _ => .error .attributeError

example :
    parse_response "not json" = .ok (degradedResult "not json".toList) := by rfl

example :
    parse_response
      "```json\n\x7b\"score\": 8, \"issues\": [], \"suggestion\": \"\", \"summary\": \"ok\"\x7d\n```"
      = .ok [("score", .jint 8), ("issues", .jarr []),
             ("suggestion", .jstr ""), ("summary", .jstr "ok")] := by rfl

example : parse_response "``` x" = .error .valueError := by rfl

example : parse_response "[1, 2]" = .error .attributeError := by rfl

/-- The five fields a batch element must contain. -/
def batchRequiredKeys : List String := ["id", "score", "issues", "suggestion", "summary"]

/-- Python `<` between sort keys: numbers (ints/bools) compare numerically,
strings lexicographically, anything else raises `TypeError`. -/
def pyLt : JVal → JVal → Except PyErr Bool
  | .jint a, .jint b => .ok (decide (a < b))
  | .jint a, .jbool b => .ok (decide (a < (if b then (1 : Int) else 0)))
  | .jbool a, .jint b => .ok (decide ((if a then (1 : Int) else 0) < b))
  | .jbool a, .jbool b => .ok (decide ((if a then (1 : Int) else 0) < (if b then 1 else 0)))
  | .jstr a, .jstr b => .ok (decide (a < b))
  | _, _ => .error .typeError

/-- The `key=lambda x: x["id"]` sort key of `_parse_batch_response`. -/
def idKey (d : List (String × JVal)) : JVal := (objGet d "id").getD .jnull

/-- Stable insertion of one element into an already-sorted list: the element
goes after every element whose key does not exceed its own. -/
def insertByKey (x : List (String × JVal)) :
    List (List (String × JVal)) → Except PyErr (List (List (String × JVal)))
  | [] => .ok [x]
  | y :: ys => do
    let b ← pyLt (idKey x) (idKey y)
    if b then .ok (x :: y :: ys)
    else do
      let r ← insertByKey x ys
      .ok (y :: r)

/-- `parsed.sort(key=lambda x: x["id"])`: a stable sort ascending by `id`
(embedded as left-to-right stable insertion). -/
def sortByIdKey (l : List (List (String × JVal))) :
    Except PyErr (List (List (String × JVal))) :=
  l.foldlM (fun acc x => insertByKey x acc) []

/-- The integer sort key of an element whose `id` field is a JSON integer
(the reference model used to state what the sort produces). -/
def keyIntOf (d : List (String × JVal)) : Int :=
  match objGet d "id" with
  | some (.jint i) => i
  | _ => 0

/-- Reference model of stable insertion by integer `id`. -/
def pureInsertById (x : List (String × JVal)) :
    List (List (String × JVal)) → List (List (String × JVal))
  | [] => [x]
  | y :: ys =>
    if keyIntOf x < keyIntOf y then x :: y :: ys else y :: pureInsertById x ys

/-- Reference model of the stable ascending sort by integer `id`. -/
def pureSortById (l : List (List (String × JVal))) :
    List (List (String × JVal)) :=
  l.foldl (fun acc x => pureInsertById x acc) []

/-- Whether a JSON value is an array (`isinstance(results, list)`). -/
def isJArr : JVal → Bool
  | .jarr _ => true
  | _ => false

/-- Reference model of the per-element coercion: the element with its
`score` replaced by the `int()` value and a non-list `issues` listified
(identity when the score does not coerce, a case the success theorem
excludes). -/
def coerceBatchItem (f : List (String × JVal)) : List (String × JVal) :=
  match pyInt ((objGet f "score").getD .jnull) with
  | .ok n => coerceScoreIssues f n
  | .error _ => f

/-- The per-item validation/coercion loop of `_parse_batch_response` (lines
246-255): a missing required field returns `None`; a non-object element makes
`item.keys()` raise `AttributeError`; `int(item["score"])` raises `TypeError`
on null/array/object scores (uncaught) and `ValueError` on non-numeric
strings (caught, hence `None`). -/
def processBatchItems : List JVal →
    Except PyErr (Option (List (List (String × JVal))))
  | [] => .ok (some [])
  | item :: rest =>
    match item with
    | .jobj fields =>
      if batchRequiredKeys.all (objHasKey fields) then
        match objGet fields "score" with
        | none => .ok none
        | some sv =>
          match pyInt sv with
          | .error e => if caughtByParseHandler e then .ok none else .error e
          | .ok n =>
            match processBatchItems rest with
            | .error e => .error e
            | .ok none => .ok none
            | .ok (some tail) => .ok (some (coerceScoreIssues fields n :: tail))
      else .ok none
    | _ => .error .attributeError

/-- Embedding of `LLMClient._parse_batch_response` (src/core/api_client.py
lines 223-261): fence-strip, parse, require a JSON array of exactly
`expected` members, validate/coerce each, and return them sorted ascending
by `id`; validation failures inside the `try` return `None`. -/
def parse_batch_response (raw : String) (expected : Nat) :
    Except PyErr (Option (List (List (String × JVal)))) :=
  match extract_json raw.toList with
  | .error e => .error e
  | .ok content =>
    match jloads content with
    | none => .ok none
    | some (.jarr results) =>
      if results.length ≠ expected then .ok none
      else
        match processBatchItems results with
        | .error e => .error e
        | .ok none => .ok none
        | .ok (some items) =>
          match sortByIdKey items with
          | .error e => .error e
          | .ok sorted => .ok (some sorted)
    | some _ => .ok none

example : parse_batch_response "[1, 2]" 2 = .error .attributeError := by rfl
example : parse_batch_response "3" 1 = .ok none := by rfl
set_option maxRecDepth 8000 in
example :
    parse_batch_response
      "[\x7b\"id\": 2, \"score\": 7, \"issues\": [], \"suggestion\": \"a\", \"summary\": \"s\"\x7d, \x7b\"id\": 1, \"score\": \"9\", \"issues\": \"x\", \"suggestion\": \"b\", \"summary\": \"t\"\x7d]"
      2
    = .ok (some
        [[("id", .jint 1), ("score", .jint 9), ("issues", .jarr [.jstr "x"]),
          ("suggestion", .jstr "b"), ("summary", .jstr "t")],
         [("id", .jint 2), ("score", .jint 7), ("issues", .jarr []),
          ("suggestion", .jstr "a"), ("summary", .jstr "s")]]) := by rfl

/-- `pyStrip` on strings. -/
def pyStripStr (s : String) : String := (pyStrip s.toList).asString

/-- Python subscripting `x[0]`. -/
def indexZero : JVal → Except PyErr JVal
  | .jarr [] => .error .indexError
  | .jarr (x :: _) => .ok x
  | .jobj _ => .error .keyError
  | .jstr s =>
    match s.toList with
    | [] => .error .indexError
    | c :: _ => .ok (.jstr ([c].asString))
  | _ => .error .typeError

/-- Python subscripting `x[k]` with a string key. -/
def getKey : JVal → String → Except PyErr JVal
  | .jobj fields, k =>
    match objGet fields k with
    | some v => .ok v
    | none => .error .keyError
  | _, _ => .error .typeError

/-- The lookup `result["choices"][0]["message"]["content"].strip()` performed
at src/core/api_client.py line 129 on a successful HTTP response; any failure
raises (`KeyError`/`IndexError`/`TypeError`/`AttributeError`), which `call`
catches in its generic `except Exception` handler. -/
def extractContent (body : JVal) : Except PyErr String := do
  let c ← getKey body "choices"
  let c0 ← indexZero c
  let m ← getKey c0 "message"
  let ct ← getKey m "content"
  match ct with
  | .jstr s => .ok (pyStripStr s)
  | _ => .error .attributeError

/-- One attempt's outcome, as supplied by the environment: a successful HTTP
round-trip carrying the response JSON, an `HTTPError` with a status code and
optional `Retry-After` header, an `HTTPError` whose `response` is `None`, or
any other exception (network error, timeout, ...). -/
inductive ReqOutcome where
  | success (body : JVal)
  | httpError (status : Nat) (retryAfter : Option String)
  | httpErrorNoResp
  | otherError
  deriving Repr

/-- What a run of `LLMClient.call` does: return a parsed result, raise the
terminal `Exception` after exhausting a budget, or (an artefact of the
embedding) run out of supplied outcomes while the loop would continue. -/
inductive CallResult where
  | ok (r : List (String × JVal))
  | terminal
  | fuelOut
  deriving Repr

/-- The hard-coded separate rate-limit budget (`max_rate_limit_retries = 5`,
src/core/api_client.py line 121). -/
def maxRateLimitRetries : Nat := 5

/-- The wait chosen for one HTTP 429 (src/core/api_client.py lines 147-149):
the `Retry-After` header when present, non-empty and all digits, else 10
seconds; capped at 60 seconds. -/
def wait429 (retryAfter : Option String) : Nat :=
  let w :=
    match retryAfter with
    | some s => if !s.isEmpty && s.toList.all (·.isDigit) then natOfDigits s.toList else 10
    | none => 10
  min w 60

/-- Embedding of the retry loop of `LLMClient.call` (src/core/api_client.py
lines 124-183), one supplied outcome per iteration.  Returns the result and
the list of sleeps performed (429 waits and `2^attempt` backoffs).
`attempt` is incremented at the top of each iteration; a 429 rolls it back
(`attempt -= 1`) and instead consumes the separate rate-limit budget, giving
up (terminal raise) past `maxRateLimitRetries`; other 4xx break immediately;
everything else retries under `maxRetries` with exponential backoff. -/
def callFrom (maxRetries attempt rate : Nat) :
    List ReqOutcome → CallResult × List Nat
  | [] => if attempt ≥ maxRetries then (.terminal, []) else (.fuelOut, [])
  | o :: rest =>
    if attempt ≥ maxRetries then (.terminal, [])
    else
      let attempt' := attempt + 1
      let generic : CallResult × List Nat :=
        let t := callFrom maxRetries attempt' rate rest
        if attempt' < maxRetries then (t.1, 2 ^ attempt' :: t.2) else t
      match o with
      | .success body =>
        match extractContent body with
        | .error _ => generic
        | .ok content =>
          match parse_response content with
          | .ok r => (.ok r, [])
          | .error _ => generic
      | .httpError status retryAfter =>
        if status = 429 then
          let rate' := rate + 1
          if rate' > maxRateLimitRetries then (.terminal, [])
          else
            let t := callFrom maxRetries attempt rate' rest
            (t.1, wait429 retryAfter :: t.2)
        else if 400 ≤ status ∧ status < 500 then (.terminal, [])
        else generic
      | .httpErrorNoResp => generic
      | .otherError => generic

/-- `LLMClient.call` with the default budgets freshly initialised. -/
def call (maxRetries : Nat) (outcomes : List ReqOutcome) :
    CallResult × List Nat :=
  callFrom maxRetries 0 0 outcomes

example :
    call 3 (List.replicate 6 (.httpError 429 none))
      = (.terminal, [10, 10, 10, 10, 10]) := by rfl

example :
    call 3 [.httpError 429 (some "1000"), .httpError 429 (some "30"),
            .httpError 500 none, .otherError, .httpError 401 none]
      = (.terminal, [60, 30, 2, 4]) := by rfl

/-- A well-formed assessment payload used as a concrete probe. -/
def sampleAssessment : String :=
  "\x7b\"score\": 8, \"issues\": [], \"suggestion\": \"\", \"summary\": \"ok\"\x7d"

/-- A well-formed chat-completions response body whose
`choices[0].message.content` is `sampleAssessment`. -/
def sampleResponseBody : JVal :=
  .jobj [("choices", .jarr [.jobj [("message",
    .jobj [("content", .jstr sampleAssessment)])]])]

/-- The parse of `sampleAssessment`. -/
def sampleParsedFields : List (String × JVal) :=
  [("score", .jint 8), ("issues", .jarr []),
   ("suggestion", .jstr ""), ("summary", .jstr "ok")]

/-- One input row handed to the worker (`item` in `TranslationChecker._run`). -/
structure Entry where
  row : Nat
  source : String
  target : String
  deriving Repr

/-- The observable trace of one uninterrupted worker run: rows for which
`client.call` was invoked, in order; the interval sleeps performed at
src/core/checker.py line 204; and the final `completed_rows` / `processed`. -/
structure RunTrace where
  calls : List Nat
  sleeps : List ℚ
  completed : List Nat
  processed : Nat
  deriving Repr

/-- Embedding of the per-entry loop of `TranslationChecker._run`
(src/core/checker.py lines 173-236) for a run during which the state stays
`RUNNING` (no pause/stop): skip entries whose row is already in
`completed_rows`; otherwise sleep `request_interval` when
`processed > len(completed_rows)` and `request_interval > 0`, invoke
`client.call`, append the result, add the row to `completed_rows` and
increment `processed`.  `completed` models the Python set as a
duplicate-free list, so `completed.length` is `len(completed_rows)`. -/
def runLoop (interval : ℚ) : List Entry → List Nat → Nat → RunTrace
  | [], completed, processed => ⟨[], [], completed, processed⟩
  | e :: rest, completed, processed =>
    if e.row ∈ completed then runLoop interval rest completed processed
    else
      let doSleep := processed > completed.length ∧ interval > 0
      let t := runLoop interval rest (completed ++ [e.row]) (processed + 1)
      ⟨e.row :: t.calls,
       (if doSleep then [interval] else []) ++ t.sleeps,
       t.completed, t.processed⟩

/-- An uninterrupted worker run seeded like src/core/checker.py lines
160-171: `completed_rows` comes from the checkpoint (empty when not
resuming) and `processed = len(completed_rows)`. -/
def checker_run (entries : List Entry) (completedRows0 : List Nat)
    (interval : ℚ) : RunTrace :=
  runLoop interval entries completedRows0 completedRows0.length

/-- The lifecycle states of `CheckerState` (src/core/checker.py lines 16-23). -/
inductive CheckerSt where
  | idle
  | running
  | paused
  | stopping
  | completed
  | error
  deriving DecidableEq, Repr

/-- Embedding of `TranslationChecker.start` (src/core/checker.py lines
95-119): return unchanged (no new worker) when the state is `RUNNING`,
otherwise set the state to `RUNNING` and launch a worker thread; the second
component records whether a new worker thread was started.  `start` never
joins or waits for a previously launched worker. -/
def startTransition (s : CheckerSt) : CheckerSt × Bool :=
  if s = .running then (s, false) else (.running, true)

/-- The pause-poll loop at src/core/checker.py lines 183-184: the worker
keeps sleeping exactly while the shared state reads `PAUSED`, so a paused
run's worker has not terminated when `start` is called. -/
def pausePollContinues (s : CheckerSt) : Bool := s = .paused

/-- Embedding of `os.path.basename` (POSIX): the part after the last `/`. -/
def basenameOf (p : String) : String :=
  ((p.toList.reverse.takeWhile (· ≠ '/')).reverse).asString

/-- The stem part of `os.path.splitext` applied to a basename: split at the
last dot unless every character before it is a dot (leading dots never begin
an extension). -/
def stemOf (name : String) : String :=
  let l := name.toList
  let revAfter := l.reverse.takeWhile (· ≠ '.')
  if revAfter.length = l.length then name
  else
    let pre := l.take (l.length - revAfter.length - 1)
    if pre.all (· = '.') then name else pre.asString

/-- `os.path.join` for a relative file-name component. -/
def joinPath (dir name : String) : String :=
  if dir = "" then name
  else if dir.toList.getLast? = some '/' then dir ++ name
  else dir ++ "/" ++ name

/-- Embedding of `TranslationChecker.get_checkpoint_path` (src/core/checker.py
lines 55-58): `join(checkpoint_dir, splitext(basename(excel_path))[0]
+ "_checkpoint.json")`. -/
def get_checkpoint_path (checkpointDir excelPath : String) : String :=
  joinPath checkpointDir (stemOf (basenameOf excelPath) ++ "_checkpoint.json")

/-- The JSON snapshot written by `save_checkpoint` (src/core/checker.py lines
77-87). -/
structure Checkpoint where
  excelPath : String
  timestamp : Nat
  completedRows : List Nat
  results : List (List (String × JVal))

/-- Assignment into the modelled checkpoint directory (a path-keyed store):
writing `open(cp_path, "w")` overwrites the file at that path. -/
def fsSet (fs : List (String × Checkpoint)) (k : String) (v : Checkpoint) :
    List (String × Checkpoint) :=
  match fs with
  | [] => [(k, v)]
  | (k', v') :: rest =>
      if k' = k then (k, v) :: rest else (k', v') :: fsSet rest k v

/-- Reading the file at a path; `none` when absent. -/
def fsGet (fs : List (String × Checkpoint)) (k : String) : Option Checkpoint :=
  (fs.find? (fun p => p.1 = k)).map (·.2)

/-- Embedding of `TranslationChecker.save_checkpoint`: overwrite the snapshot
at `get_checkpoint_path(excel_path)`. -/
def save_checkpoint (fs : List (String × Checkpoint))
    (checkpointDir excelPath : String) (cp : Checkpoint) :
    List (String × Checkpoint) :=
  fsSet fs (get_checkpoint_path checkpointDir excelPath) cp

/-- Embedding of `TranslationChecker.load_checkpoint`: read the snapshot at
`get_checkpoint_path(excel_path)`; `none` when the file is absent (snapshots
written by `save_checkpoint` always parse). -/
def load_checkpoint (fs : List (String × Checkpoint))
    (checkpointDir excelPath : String) : Option Checkpoint :=
  fsGet fs (get_checkpoint_path checkpointDir excelPath)

example :
    (checker_run [⟨2, "a", "b"⟩, ⟨3, "c", "d"⟩, ⟨4, "e", "f"⟩] [2, 3] 1).calls
      = [4] := by rfl

example :
    (checker_run [⟨1, "a", "b"⟩, ⟨2, "c", "d"⟩] [] 1).sleeps = [] := by rfl

example : get_checkpoint_path "cp" "a/data.xlsx" = "cp/data_checkpoint.json" := by rfl
example : get_checkpoint_path "cp" "b/data.txt" = "cp/data_checkpoint.json" := by rfl

lemma rstripBy_front (p : Char → Bool) (l : List Char) : rstripBy p l <+: l := by
  have h := List.dropWhile_suffix (l := l.reverse) p
  have h2 : (l.reverse.dropWhile p).reverse <+: l.reverse.reverse :=
    List.reverse_prefix.mpr h
  simpa [rstripBy] using h2

lemma url_head_aux (l : List Char) (c : Char) (t : List Char)
    (h : stripped_url l = c :: t) : pyIsSpace c = false := by
  have h1 : stripped_url l <+: l.dropWhile pyIsSpace :=
    (rstripBy_front _ _).trans (rstripBy_front _ _)
  rw [h] at h1
  obtain ⟨t2, ht⟩ := h1
  have h3 := List.head?_dropWhile_not pyIsSpace l
  rw [← ht] at h3
  simpa using h3

lemma buildUrl_suffix (l : List Char) :
    "/chat/completions".toList <:+ buildUrlChars l := by
  unfold buildUrlChars
  split
  · next h => exact List.isSuffixOf_iff_suffix.mp h
  · split
    · next h2 =>
      obtain ⟨p, hp⟩ := List.isSuffixOf_iff_suffix.mp h2
      refine ⟨p, ?_⟩
      rw [← hp, List.append_assoc]
      rfl
    · exact List.suffix_append _ _

lemma buildUrl_head (l : List Char) (c : Char)
    (h : (buildUrlChars l).head? = some c) : pyIsSpace c = false := by
  rcases hu : stripped_url l with _ | ⟨u, us⟩ <;> unfold buildUrlChars at h <;>
      rw [hu] at h <;> split at h <;>
      try split at h
  · next hA =>
    rw [List.isSuffixOf_iff_suffix] at hA
    simp at hA
  · next hB =>
    rw [List.isSuffixOf_iff_suffix] at hB
    simp at hB
  · simp at h
    subst h
    decide
  · simp at h
    subst h
    exact url_head_aux l _ us hu
  · simp at h
    subst h
    exact url_head_aux l _ us hu
  · simp at h
    subst h
    exact url_head_aux l _ us hu

lemma buildUrl_fixed (r : List Char)
    (hsuf : "/chat/completions".toList <:+ r)
    (hhead : ∀ c, r.head? = some c → pyIsSpace c = false) :
    buildUrlChars r = r := by
  obtain ⟨a, ha⟩ := hsuf
  have hrev : r.reverse = 's' :: ("noitelpmoc/tahc/".toList ++ a.reverse) := by
    rw [← ha, List.reverse_append]
    rfl
  have hdropRev : ∀ p : Char → Bool, p 's' = false →
      r.reverse.dropWhile p = r.reverse := by
    intro p hp
    rw [hrev]
    simp [List.dropWhile_cons, hp]
  have hhead' : r.dropWhile pyIsSpace = r := by
    cases hr : r with
    | nil => rfl
    | cons c t =>
      have := hhead c (by rw [hr]; rfl)
      rw [List.dropWhile_cons]
      simp [this]
  have hstrip : pyStrip r = r := by
    unfold pyStrip rstripBy
    rw [hhead', hdropRev pyIsSpace (by decide), List.reverse_reverse]
  have hslash : stripped_url r = r := by
    unfold stripped_url rstripBy
    rw [hstrip, hdropRev (· = '/') (by decide), List.reverse_reverse]
  unfold buildUrlChars
  rw [hslash, if_pos (List.isSuffixOf_iff_suffix.mpr ⟨a, ha⟩)]

lemma buildUrl_idem (l : List Char) :
    buildUrlChars (buildUrlChars l) = buildUrlChars l :=
  buildUrl_fixed (buildUrlChars l) (buildUrl_suffix l) (buildUrl_head l)

/-- C7: endpoint canonicalization is idempotent — for every input string,
applying `_build_url` twice yields the same result as applying it once — and
the five example inputs `https://x/v1`, `https://x/v1/`, `https://x/v1/chat`,
`https://x/v1/chat/completions`, `https://x/v1/chat/completions/` all
canonicalize to `https://x/v1/chat/completions`. -/
theorem C7_build_url_idempotent :
    (∀ s : String, build_url (build_url s) = build_url s) ∧
    build_url "https://x/v1" = "https://x/v1/chat/completions" ∧
    build_url "https://x/v1/" = "https://x/v1/chat/completions" ∧
    build_url "https://x/v1/chat" = "https://x/v1/chat/completions" ∧
    build_url "https://x/v1/chat/completions" = "https://x/v1/chat/completions" ∧
    build_url "https://x/v1/chat/completions/" = "https://x/v1/chat/completions" := by
  refine ⟨fun s => ?_, by decide, by decide, by decide, by decide, by decide⟩
  show (buildUrlChars ((buildUrlChars s.toList).asString).toList).asString = _
  have h1 : ((buildUrlChars s.toList).asString).toList = buildUrlChars s.toList := rfl
  rw [h1, buildUrl_idem]
  rfl

lemma runLoop_calls_not_mem (interval : ℚ) (entries : List Entry) :
    ∀ (completed : List Nat) (processed : Nat) (r : Nat),
      r ∈ (runLoop interval entries completed processed).calls → r ∉ completed := by
  induction entries with
  | nil =>
    intro completed processed r h
    simp [runLoop] at h
  | cons e rest ih =>
    intro completed processed r h
    by_cases hm : e.row ∈ completed
    · rw [runLoop, if_pos hm] at h
      exact ih completed processed r h
    · rw [runLoop, if_neg hm] at h
      simp only [List.mem_cons] at h
      rcases h with h1 | h2
      · subst h1
        exact hm
      · intro hc
        exact ih _ _ r h2 (List.mem_append_left _ hc)

/-- C3: given entries with rows 2, 3, 4 and a prior checkpoint whose
`completed_rows` is `[2, 3]`, a resumed (state-uninterrupted) run invokes
`client.call` exactly once, for row 4; in general a row already in
`completed_rows` is never passed to `client.call`. -/
theorem C3_resume_skips_completed :
    (checker_run [⟨2, "s2", "t2"⟩, ⟨3, "s3", "t3"⟩, ⟨4, "s4", "t4"⟩]
        (((load_checkpoint
            (save_checkpoint [] "ckpt" "job.xlsx" ⟨"job.xlsx", 0, [2, 3], []⟩)
            "ckpt" "job.xlsx").getD ⟨"", 0, [], []⟩).completedRows) 1).calls
      = [4] ∧
    (∀ (entries : List Entry) (c0 : List Nat) (interval : ℚ) (r : Nat),
        r ∈ (checker_run entries c0 interval).calls → r ∉ c0) :=
  ⟨by rfl, fun entries c0 interval r h => runLoop_calls_not_mem interval entries c0 _ r h⟩

theorem C3_resume_skips_completed_witness : (4 : Nat) ∉ ([2, 3] : List Nat) :=
  C3_resume_skips_completed.2 [⟨2, "a", "b"⟩, ⟨3, "c", "d"⟩, ⟨4, "e", "f"⟩]
    [2, 3] 1 4 (by decide)

lemma runLoop_sleeps_nil (interval : ℚ) (entries : List Entry) :
    ∀ (completed : List Nat) (processed : Nat),
      processed ≤ completed.length →
      (runLoop interval entries completed processed).sleeps = [] := by
  induction entries with
  | nil =>
    intro completed processed _
    simp [runLoop]
  | cons e rest ih =>
    intro completed processed hle
    by_cases hm : e.row ∈ completed
    · rw [runLoop, if_pos hm]
      exact ih completed processed hle
    · rw [runLoop, if_neg hm]
      have hns : ¬(processed > completed.length ∧ interval > 0) := by
        intro ⟨h1, _⟩
        omega
      simp only [hns, if_false, ite_false, List.nil_append]
      have : processed + 1 ≤ (completed ++ [e.row]).length := by
        simp
        omega
      exact ih _ _ this

/-- C1: contrary to the spec (and to the code's own comment at
src/core/checker.py line 202, "request interval — the first row does not
wait"), the sleep at line 204 never happens: `processed` is initialised to
`len(completed_rows)` and both grow together, so the guard
`processed > len(completed_rows)` is always false.  With two fresh rows and
`request_interval = 1` the run makes two remote calls and zero interval
sleeps, where the claim requires a sleep before the second call. -/
theorem C1_interval_sleep_never_fires :
    (∀ (entries : List Entry) (c0 : List Nat) (interval : ℚ),
        (checker_run entries c0 interval).sleeps = []) ∧
    (checker_run [⟨1, "a", "b"⟩, ⟨2, "c", "d"⟩] [] 1).calls = [1, 2] ∧
    (checker_run [⟨1, "a", "b"⟩, ⟨2, "c", "d"⟩] [] 1).sleeps = [] :=
  ⟨fun entries c0 interval => runLoop_sleeps_nil interval entries c0 c0.length le_rfl,
   by rfl, by rfl⟩

/-- C8: `start` is a no-op exactly when the state is `RUNNING`; called in
`PAUSED` or `STOPPING` it sets the state to `RUNNING` and launches a fresh
worker thread (second component `true`), while the paused run's worker is
still inside its pause-poll loop (`pausePollContinues .paused = true`) —
`start` never joins the old worker. -/
theorem C8_start_noop_only_when_running :
    startTransition .running = (.running, false) ∧
    startTransition .paused = (.running, true) ∧
    startTransition .stopping = (.running, true) ∧
    (∀ s : CheckerSt, s ≠ .running → startTransition s = (.running, true)) ∧
    pausePollContinues .paused = true := by
  refine ⟨rfl, rfl, rfl, fun s hs => ?_, rfl⟩
  simp [startTransition, hs]

theorem C8_start_noop_only_when_running_witness :
    startTransition .stopping = (.running, true) :=
  C8_start_noop_only_when_running.2.2.2.1 .stopping (by decide)

lemma fsGet_fsSet_self (fs : List (String × Checkpoint)) (k : String)
    (v : Checkpoint) : fsGet (fsSet fs k v) k = some v := by
  induction fs with
  | nil => simp [fsSet, fsGet, List.find?]
  | cons p rest ih =>
    obtain ⟨k', v'⟩ := p
    by_cases h : k' = k
    · simp [fsSet, h, fsGet, List.find?]
    · simp only [fsSet, h, if_false, ite_false]
      simpa [fsGet, List.find?, h] using ih

/-- C10: the checkpoint path depends only on the checkpoint directory and the
basename stem of the source path; two distinct source paths with equal stems
share a checkpoint file, so a checkpoint saved under one is returned by a
load under the other. -/
theorem C10_checkpoint_path_stem_only :
    (∀ dir p1 p2 : String, stemOf (basenameOf p1) = stemOf (basenameOf p2) →
        get_checkpoint_path dir p1 = get_checkpoint_path dir p2) ∧
    (∀ (dir p1 p2 : String) (fs : List (String × Checkpoint)) (cp : Checkpoint),
        stemOf (basenameOf p1) = stemOf (basenameOf p2) →
        load_checkpoint (save_checkpoint fs dir p1 cp) dir p2 = some cp) ∧
    ("a/data.xlsx" ≠ "b/data.txt" ∧
      get_checkpoint_path "cp" "a/data.xlsx" = get_checkpoint_path "cp" "b/data.txt") := by
  have hpath : ∀ dir p1 p2 : String,
      stemOf (basenameOf p1) = stemOf (basenameOf p2) →
      get_checkpoint_path dir p1 = get_checkpoint_path dir p2 := by
    intro dir p1 p2 h
    unfold get_checkpoint_path
    rw [h]
  refine ⟨hpath, fun dir p1 p2 fs cp h => ?_, by decide, by decide⟩
  unfold load_checkpoint save_checkpoint
  rw [← hpath dir p1 p2 h]
  exact fsGet_fsSet_self fs _ cp

theorem C10_checkpoint_path_stem_only_witness :
    stemOf (basenameOf "a/data.xlsx") = stemOf (basenameOf "b/data.txt") ∧
    load_checkpoint
        (save_checkpoint [] "cp" "a/data.xlsx" ⟨"a/data.xlsx", 7, [2, 3], []⟩)
        "cp" "b/data.txt"
      = some ⟨"a/data.xlsx", 7, [2, 3], []⟩ :=
  ⟨by decide,
   C10_checkpoint_path_stem_only.2.1 "cp" "a/data.xlsx" "b/data.txt" [] _ (by decide)⟩

lemma callFrom_429_prefix (ra : Option String) :
    ∀ (k maxR a rate : Nat) (rest : List ReqOutcome), a < maxR →
      rate + k ≤ maxRateLimitRetries →
      callFrom maxR a rate (List.replicate k (.httpError 429 ra) ++ rest)
        = ((callFrom maxR a (rate + k) rest).1,
           List.replicate k (wait429 ra) ++ (callFrom maxR a (rate + k) rest).2) := by
  intro k
  induction k with
  | zero =>
    intro maxR a rate rest _ _
    simp
  | succ k ih =>
    intro maxR a rate rest ha h5
    rw [List.replicate_succ, List.cons_append, callFrom]
    rw [if_neg (by omega)]
    dsimp only
    rw [if_pos rfl, if_neg (by simp [maxRateLimitRetries] at h5 ⊢; omega)]
    rw [ih maxR a (rate + 1) rest ha (by simp [maxRateLimitRetries] at h5 ⊢; omega)]
    have hr : rate + 1 + k = rate + (k + 1) := by omega
    rw [hr, List.replicate_succ, List.cons_append]

lemma call_six_429 (ra : Option String) :
    call 3 (List.replicate 6 (.httpError 429 ra))
      = (.terminal, List.replicate 5 (wait429 ra)) := by
  have h : List.replicate 6 (ReqOutcome.httpError 429 ra)
      = List.replicate 5 (.httpError 429 ra) ++ [.httpError 429 ra] :=
    List.replicate_succ' 5 _
  rw [call, h, callFrom_429_prefix ra 5 3 0 0 _ (by omega) (by decide)]
  rw [callFrom, if_neg (by omega)]
  dsimp only
  rw [if_pos rfl, if_pos (by decide)]
  simp

/-- C4: HTTP 429 is retried under the separate rate-limit budget of 5:
six consecutive 429 responses make `call` (default general budget 3) raise
the terminal failure after five waits; the wait for one 429 is the
`Retry-After` header when present and a non-negative digit string, else 10,
and always capped at 60 seconds; and a run of up to five 429s leaves the
general attempt counter untouched — the loop continues on the remaining
outcomes with the same `attempt` value, only `rate_limit_retries` grown. -/
theorem C4_rate_limit_separate_budget :
    (∀ ra : Option String,
        call 3 (List.replicate 6 (.httpError 429 ra))
          = (.terminal, List.replicate 5 (wait429 ra))) ∧
    (∀ ra : Option String, wait429 ra ≤ 60) ∧
    wait429 (some "30") = 30 ∧
    wait429 none = 10 ∧
    wait429 (some "1000") = 60 ∧
    wait429 (some "-5") = 10 ∧
    wait429 (some "") = 10 ∧
    (∀ s : String, s.isEmpty = false → s.toList.all (·.isDigit) = true →
        wait429 (some s) = min (natOfDigits s.toList) 60) ∧
    (∀ (ra : Option String) (k maxR a rate : Nat) (rest : List ReqOutcome),
        a < maxR → rate + k ≤ maxRateLimitRetries →
        callFrom maxR a rate (List.replicate k (.httpError 429 ra) ++ rest)
          = ((callFrom maxR a (rate + k) rest).1,
             List.replicate k (wait429 ra) ++ (callFrom maxR a (rate + k) rest).2)) := by
  refine ⟨call_six_429, fun ra => ?_, by rfl, by rfl, by rfl, by rfl, by rfl,
    fun s h1 h2 => ?_, fun ra k maxR a rate rest ha h5 =>
      callFrom_429_prefix ra k maxR a rate rest ha h5⟩
  · unfold wait429
    cases ra <;> simp
  · unfold wait429
    simp only [h1]
    rw [if_pos]
    simpa using h2

theorem C4_rate_limit_separate_budget_witness :
    (("25" : String).isEmpty = false ∧ "25".toList.all (·.isDigit) = true ∧
      wait429 (some "25") = min (natOfDigits "25".toList) 60) ∧
    (0 < 3 ∧ 0 + 2 ≤ maxRateLimitRetries ∧
      callFrom 3 0 0
          (List.replicate 2 (.httpError 429 (some "25")) ++ [.httpError 404 none])
        = ((callFrom 3 0 (0 + 2) [.httpError 404 none]).1,
           List.replicate 2 (wait429 (some "25"))
             ++ (callFrom 3 0 (0 + 2) [.httpError 404 none]).2)) :=
  ⟨⟨by decide, by decide,
    C4_rate_limit_separate_budget.2.2.2.2.2.2.2.1 "25" (by decide) (by decide)⟩,
   ⟨by decide, by decide,
    C4_rate_limit_separate_budget.2.2.2.2.2.2.2.2 (some "25") 2 3 0 0
      [.httpError 404 none] (by decide) (by decide)⟩⟩

lemma callFrom_bad_success_terminal (maxR : Nat) (body : JVal) (e : PyErr)
    (hbad : extractContent body = .error e) :
    ∀ (n a rate : Nat), maxR ≤ a + n →
      (callFrom maxR a rate (List.replicate n (.success body))).1 = .terminal := by
  intro n
  induction n with
  | zero =>
    intro a rate h
    rw [List.replicate_zero, callFrom, if_pos (by omega)]
  | succ n ih =>
    intro a rate h
    rw [List.replicate_succ, callFrom]
    by_cases ha : a ≥ maxR
    · rw [if_pos ha]
    · rw [if_neg ha]
      dsimp only
      rw [hbad]
      dsimp only
      have ht := ih (a + 1) rate (by omega)
      split
      · simpa using ht
      · simpa using ht

/-- C9: a 2xx response whose JSON lacks the `choices[0].message.content`
path raises a lookup error that the generic `except Exception` handler
catches, consuming the general retry budget: `maxRetries` such responses in
a row make `call` raise the terminal failure (never a degraded result),
with the exponential backoffs 2, 4 between the three default attempts;
two such responses followed by a well-formed one still succeed. -/
theorem C9_missing_content_uses_general_budget :
    (∀ (maxR : Nat) (body : JVal) (e : PyErr), extractContent body = .error e →
        (call maxR (List.replicate maxR (.success body))).1 = .terminal) ∧
    extractContent (.jobj []) = .error .keyError ∧
    call 3 (List.replicate 3 (.success (.jobj []))) = (.terminal, [2, 4]) ∧
    call 3 [.success (.jobj []), .success (.jobj []), .success sampleResponseBody]
      = (.ok sampleParsedFields, [2, 4]) :=
  ⟨fun maxR body e hbad =>
      callFrom_bad_success_terminal maxR body e hbad maxR 0 0 (by omega),
   by rfl, by rfl, by rfl⟩

theorem C9_missing_content_uses_general_budget_witness :
    extractContent (.jarr []) = .error .typeError ∧
    (call 2 (List.replicate 2 (.success (.jarr [])))).1 = .terminal :=
  ⟨by rfl,
   C9_missing_content_uses_general_budget.1 2 (.jarr []) .typeError (by rfl)⟩

lemma objGet_objSet_self (f : List (String × JVal)) (k : String) (v : JVal) :
    objGet (objSet f k v) k = some v := by
  induction f with
  | nil => simp [objSet, objGet, List.find?]
  | cons p rest ih =>
    obtain ⟨k', v'⟩ := p
    by_cases h : k' = k
    · simp [objSet, h, objGet, List.find?]
    · simp only [objSet, h, if_false, ite_false]
      simpa [objGet, List.find?, h] using ih

lemma objGet_objSet_ne (f : List (String × JVal)) (k k' : String) (v : JVal)
    (h : k' ≠ k) : objGet (objSet f k v) k' = objGet f k' := by
  have h' : k ≠ k' := Ne.symm h
  induction f with
  | nil => simp [objSet, objGet, List.find?, h']
  | cons p rest ih =>
    obtain ⟨k0, v0⟩ := p
    by_cases h0 : k0 = k
    · subst h0
      simp [objSet, objGet, List.find?, h']
    · simp only [objSet, h0, if_false, ite_false]
      by_cases h1 : k0 = k'
      · simp [objGet, List.find?, h1]
      · simpa [objGet, List.find?, h1] using ih

lemma objGet_coerce_score (fields : List (String × JVal)) (n : Int) :
    objGet (coerceScoreIssues fields n) "score" = some (.jint n) := by
  unfold coerceScoreIssues
  dsimp only
  split
  · exact objGet_objSet_self fields "score" (.jint n)
  · rw [objGet_objSet_ne _ _ _ _ (by decide)]
    exact objGet_objSet_self fields "score" (.jint n)
  · exact objGet_objSet_self fields "score" (.jint n)

lemma parse_response_loads_none (raw : String) (content : List Char)
    (h1 : extract_json raw.toList = .ok content)
    (h2 : jloads content = none) :
    parse_response raw = .ok (degradedResult content) := by
  unfold parse_response
  rw [h1]
  dsimp only
  rw [h2]

lemma parse_response_missing_keys (raw : String) (content : List Char)
    (fields : List (String × JVal))
    (h1 : extract_json raw.toList = .ok content)
    (h2 : jloads content = some (.jobj fields))
    (h3 : requiredKeys.all (objHasKey fields) = false) :
    parse_response raw = .ok (degradedResult content) := by
  unfold parse_response
  rw [h1]
  dsimp only
  rw [h2]
  dsimp only
  rw [h3]
  simp

lemma parse_response_score_value_error (raw : String) (content : List Char)
    (fields : List (String × JVal)) (sv : JVal)
    (h1 : extract_json raw.toList = .ok content)
    (h2 : jloads content = some (.jobj fields))
    (h3 : requiredKeys.all (objHasKey fields) = true)
    (h4 : objGet fields "score" = some sv)
    (h5 : pyInt sv = .error .valueError) :
    parse_response raw = .ok (degradedResult content) := by
  unfold parse_response
  rw [h1]
  dsimp only
  rw [h2]
  dsimp only
  rw [h3]
  simp only [if_pos rfl]
  rw [h4]
  dsimp only
  rw [h5]
  simp [caughtByParseHandler]

lemma parse_response_accepted (raw : String) (content : List Char)
    (fields : List (String × JVal)) (sv : JVal) (n : Int)
    (h1 : extract_json raw.toList = .ok content)
    (h2 : jloads content = some (.jobj fields))
    (h3 : requiredKeys.all (objHasKey fields) = true)
    (h4 : objGet fields "score" = some sv)
    (h5 : pyInt sv = .ok n) :
    parse_response raw = .ok (coerceScoreIssues fields n) := by
  unfold parse_response
  rw [h1]
  dsimp only
  rw [h2]
  dsimp only
  rw [h3]
  simp only [if_pos rfl]
  rw [h4]
  dsimp only
  rw [h5]
  simp [caughtByParseHandler]

/-- C2 counterexample: response parsing can raise — an opening fence with no
closing fence makes `content.index("```", start)` raise `ValueError` outside
the `try` — and when a fenced wrapper is stripped and parsing then fails,
the degraded result's `suggestion` is the fence-stripped content, not the
raw content. -/
theorem C2_parse_never_raises_counterexample :
    parse_response "``` x" = .error .valueError ∧
    parse_response "```not json```" = .ok (degradedResult "not json".toList) ∧
    objGet (degradedResult "not json".toList) "suggestion"
      = some (.jstr "not json") ∧
    ("not json" : String) ≠ "```not json```" :=
  ⟨by rfl, by rfl, by rfl, by decide⟩

/-- C2 (amended): fenced wrappers (```json or bare ```) are stripped before
JSON parsing, and whenever fence extraction succeeds, parsing returns without
raising in each caught-failure case — unparseable JSON, an object missing a
required field, or a string score that `int()` rejects — yielding the
degraded AssessmentResult whose `suggestion` is the fence-stripped content
(`degradedResult`), while an accepted object returns coerced fields. -/
theorem C2_parse_response_degraded :
    (∀ (raw : String) (content : List Char),
        extract_json raw.toList = .ok content →
        jloads content = none →
        parse_response raw = .ok (degradedResult content)) ∧
    (∀ (raw : String) (content : List Char) (fields : List (String × JVal)),
        extract_json raw.toList = .ok content →
        jloads content = some (.jobj fields) →
        requiredKeys.all (objHasKey fields) = false →
        parse_response raw = .ok (degradedResult content)) ∧
    (∀ (raw : String) (content : List Char) (fields : List (String × JVal)) (sv : JVal),
        extract_json raw.toList = .ok content →
        jloads content = some (.jobj fields) →
        requiredKeys.all (objHasKey fields) = true →
        objGet fields "score" = some sv →
        pyInt sv = .error .valueError →
        parse_response raw = .ok (degradedResult content)) ∧
    (∀ (raw : String) (content : List Char) (fields : List (String × JVal)) (sv : JVal) (n : Int),
        extract_json raw.toList = .ok content →
        jloads content = some (.jobj fields) →
        requiredKeys.all (objHasKey fields) = true →
        objGet fields "score" = some sv →
        pyInt sv = .ok n →
        parse_response raw = .ok (coerceScoreIssues fields n)) :=
  ⟨parse_response_loads_none, parse_response_missing_keys,
   parse_response_score_value_error, parse_response_accepted⟩

theorem C2_parse_response_degraded_witness :
    extract_json "no fence here".toList = .ok "no fence here".toList ∧
    jloads "no fence here".toList = none ∧
    parse_response "no fence here" = .ok (degradedResult "no fence here".toList) :=
  ⟨by rfl, by rfl,
   C2_parse_response_degraded.1 "no fence here" "no fence here".toList (by rfl) (by rfl)⟩

/-- C6 counterexample: an accepted parse whose `score` is 11 flows through
unchanged — `_parse_response` coerces `score` with `int()` but never checks
the 0-10 range, so `call` can produce an AssessmentResult with score 11. -/
theorem C6_score_range_counterexample :
    parse_response "\x7b\"score\": 11, \"issues\": [], \"suggestion\": \"\", \"summary\": \"\"\x7d"
      = .ok [("score", .jint 11), ("issues", .jarr []),
             ("suggestion", .jstr ""), ("summary", .jstr "")] ∧
    objGet [(("score" : String), JVal.jint 11), ("issues", .jarr []),
            ("suggestion", .jstr ""), ("summary", .jstr "")] "score"
      = some (.jint 11) ∧
    ¬((11 : Int) ≤ 10) :=
  ⟨by rfl, by rfl, by decide⟩

/-- C6 (amended): the degraded sentinel result always has `score = 0`, and
an accepted parse carries exactly the `int()`-coerced value of its `score`
field — any integer, with no 0-10 range validation. -/
theorem C6_score_coerced_unvalidated :
    (∀ content : List Char,
        objGet (degradedResult content) "score" = some (.jint 0)) ∧
    (∀ (fields : List (String × JVal)) (n : Int),
        objGet (coerceScoreIssues fields n) "score" = some (.jint n)) ∧
    (∀ (raw : String) (content : List Char) (fields : List (String × JVal))
        (sv : JVal) (n : Int),
        extract_json raw.toList = .ok content →
        jloads content = some (.jobj fields) →
        requiredKeys.all (objHasKey fields) = true →
        objGet fields "score" = some sv →
        pyInt sv = .ok n →
        ∃ r, parse_response raw = .ok r ∧ objGet r "score" = some (.jint n)) :=
  ⟨fun _ => rfl, objGet_coerce_score,
   fun raw content fields sv n h1 h2 h3 h4 h5 =>
     ⟨coerceScoreIssues fields n,
      parse_response_accepted raw content fields sv n h1 h2 h3 h4 h5,
      objGet_coerce_score fields n⟩⟩

theorem C6_score_coerced_unvalidated_witness :
    ∃ r, parse_response
        "\x7b\"score\": 99, \"issues\": [], \"suggestion\": \"\", \"summary\": \"\"\x7d"
      = .ok r ∧ objGet r "score" = some (.jint 99) :=
  C6_score_coerced_unvalidated.2.2
    "\x7b\"score\": 99, \"issues\": [], \"suggestion\": \"\", \"summary\": \"\"\x7d"
    "\x7b\"score\": 99, \"issues\": [], \"suggestion\": \"\", \"summary\": \"\"\x7d".toList
    [("score", .jint 99), ("issues", .jarr []),
     ("suggestion", .jstr ""), ("summary", .jstr "")]
    (.jint 99) 99 (by rfl) (by rfl) (by rfl) (by rfl) (by rfl)

lemma objHasKey_exists (f : List (String × JVal)) (k : String)
    (h : objHasKey f k = true) : ∃ v, objGet f k = some v := by
  induction f with
  | nil => simp [objHasKey] at h
  | cons p rest ih =>
    obtain ⟨k0, v0⟩ := p
    by_cases h0 : k0 = k
    · exact ⟨v0, by simp [objGet, List.find?, h0]⟩
    · have h' : objHasKey rest k = true := by
        simpa [objHasKey, h0] using h
      obtain ⟨v, hv⟩ := ih h'
      exact ⟨v, by simpa [objGet, List.find?, h0] using hv⟩

lemma objGet_coerce_other (f : List (String × JVal)) (n : Int) (k : String)
    (h1 : k ≠ "score") (h2 : k ≠ "issues") :
    objGet (coerceScoreIssues f n) k = objGet f k := by
  unfold coerceScoreIssues
  dsimp only
  split
  · exact objGet_objSet_ne f "score" k (.jint n) h1
  · rw [objGet_objSet_ne _ "issues" k _ h2]
    exact objGet_objSet_ne f "score" k (.jint n) h1
  · exact objGet_objSet_ne f "score" k (.jint n) h1

lemma objGet_coerceBatchItem_id (f : List (String × JVal)) :
    objGet (coerceBatchItem f) "id" = objGet f "id" := by
  unfold coerceBatchItem
  split
  · exact objGet_coerce_other f _ "id" (by decide) (by decide)
  · rfl

lemma processBatchItems_map_jobj (fs : List (List (String × JVal)))
    (hkeys : ∀ f ∈ fs, batchRequiredKeys.all (objHasKey f) = true)
    (hscore : ∀ f ∈ fs, ∃ m, pyInt ((objGet f "score").getD .jnull) = .ok m) :
    processBatchItems (fs.map .jobj) = .ok (some (fs.map coerceBatchItem)) := by
  induction fs with
  | nil => rfl
  | cons f rest ih =>
    have hk : batchRequiredKeys.all (objHasKey f) = true :=
      hkeys f (List.mem_cons_self f rest)
    have hsc : objHasKey f "score" = true := by
      have := List.all_eq_true.mp hk "score" (by simp [batchRequiredKeys])
      exact this
    obtain ⟨sv, hsv⟩ := objHasKey_exists f "score" hsc
    obtain ⟨m, hm⟩ := hscore f (List.mem_cons_self f rest)
    rw [hsv] at hm
    simp only [Option.getD_some] at hm
    rw [List.map_cons, processBatchItems]
    rw [hk]
    simp only [if_pos rfl]
    rw [hsv]
    dsimp only
    rw [hm]
    dsimp only
    rw [ih (fun g hg => hkeys g (List.mem_cons_of_mem f hg))
        (fun g hg => hscore g (List.mem_cons_of_mem f hg))]
    dsimp only
    rw [List.map_cons]
    have hco : coerceBatchItem f = coerceScoreIssues f m := by
      unfold coerceBatchItem
      rw [hsv]
      simp only [Option.getD_some]
      rw [hm]
    rw [hco]
    simp

lemma mem_pureInsertById (x z : List (String × JVal)) :
    ∀ l, z ∈ pureInsertById x l → z = x ∨ z ∈ l := by
  intro l
  induction l with
  | nil =>
    intro h
    simpa [pureInsertById] using h
  | cons y ys ih =>
    intro h
    unfold pureInsertById at h
    split at h
    · rcases List.mem_cons.mp h with h1 | h2
      · exact Or.inl h1
      · exact Or.inr h2
    · rcases List.mem_cons.mp h with h1 | h2
      · exact Or.inr (h1 ▸ List.mem_cons_self y ys)
      · rcases ih h2 with h3 | h4
        · exact Or.inl h3
        · exact Or.inr (List.mem_cons_of_mem y h4)

lemma insertByKey_pure (x : List (String × JVal)) :
    ∀ acc : List (List (String × JVal)),
      (∃ i, objGet x "id" = some (.jint i)) →
      (∀ d ∈ acc, ∃ i, objGet d "id" = some (.jint i)) →
      insertByKey x acc = .ok (pureInsertById x acc) := by
  intro acc
  induction acc with
  | nil => intro _ _; rfl
  | cons y ys ih =>
    intro hx hacc
    obtain ⟨ix, hix⟩ := hx
    obtain ⟨iy, hiy⟩ := hacc y (List.mem_cons_self y ys)
    have hkx : keyIntOf x = ix := by simp [keyIntOf, hix]
    have hky : keyIntOf y = iy := by simp [keyIntOf, hiy]
    have hidx : idKey x = .jint ix := by simp [idKey, hix]
    have hidy : idKey y = .jint iy := by simp [idKey, hiy]
    by_cases hlt : ix < iy
    · simp [insertByKey, hidx, hidy, pyLt, pureInsertById, hkx, hky, hlt,
        Bind.bind, Except.bind]
    · have hrec := ih ⟨ix, hix⟩ (fun d hd => hacc d (List.mem_cons_of_mem y hd))
      simp [insertByKey, hidx, hidy, pyLt, pureInsertById, hkx, hky, hlt, hrec,
        Bind.bind, Except.bind]

lemma sortByIdKey_pure_aux :
    ∀ l acc : List (List (String × JVal)),
      (∀ d ∈ l, ∃ i, objGet d "id" = some (.jint i)) →
      (∀ d ∈ acc, ∃ i, objGet d "id" = some (.jint i)) →
      List.foldlM (fun acc x => insertByKey x acc) acc l
        = .ok (l.foldl (fun acc x => pureInsertById x acc) acc) := by
  intro l
  induction l with
  | nil => intro acc _ _; rfl
  | cons x xs ih =>
    intro acc hl hacc
    have hx := hl x (List.mem_cons_self x xs)
    rw [List.foldlM_cons, insertByKey_pure x acc hx hacc]
    have hacc' : ∀ d ∈ pureInsertById x acc, ∃ i, objGet d "id" = some (.jint i) := by
      intro d hd
      rcases mem_pureInsertById x d acc hd with h1 | h2
      · exact h1 ▸ hx
      · exact hacc d h2
    have := ih (pureInsertById x acc)
      (fun d hd => hl d (List.mem_cons_of_mem x hd)) hacc'
    simpa [List.foldl_cons] using this

lemma sortByIdKey_pure (l : List (List (String × JVal)))
    (hl : ∀ d ∈ l, ∃ i, objGet d "id" = some (.jint i)) :
    sortByIdKey l = .ok (pureSortById l) :=
  sortByIdKey_pure_aux l [] hl (by intro d hd; simp at hd)

lemma pairwise_pureInsertById (x : List (String × JVal))
    (l : List (List (String × JVal)))
    (h : l.Pairwise (fun a b => keyIntOf a ≤ keyIntOf b)) :
    (pureInsertById x l).Pairwise (fun a b => keyIntOf a ≤ keyIntOf b) := by
  induction l with
  | nil => simp [pureInsertById]
  | cons y ys ih =>
    rcases List.pairwise_cons.mp h with ⟨hy, hys⟩
    unfold pureInsertById
    split
    · next hlt =>
      refine List.pairwise_cons.mpr ⟨?_, h⟩
      intro z hz
      rcases List.mem_cons.mp hz with h1 | h2
      · exact h1 ▸ le_of_lt hlt
      · exact le_trans (le_of_lt hlt) (hy z h2)
    · next hnlt =>
      refine List.pairwise_cons.mpr ⟨?_, ih hys⟩
      intro z hz
      rcases mem_pureInsertById x z ys hz with h1 | h2
      · exact h1 ▸ not_lt.mp hnlt
      · exact hy z h2

lemma perm_pureInsertById (x : List (String × JVal))
    (l : List (List (String × JVal))) :
    List.Perm (pureInsertById x l) (x :: l) := by
  induction l with
  | nil => simp [pureInsertById]
  | cons y ys ih =>
    unfold pureInsertById
    split
    · exact List.Perm.refl _
    · exact ((ih.cons y).trans (List.Perm.swap x y ys))

lemma pairwise_pureSortById_aux :
    ∀ l acc : List (List (String × JVal)),
      acc.Pairwise (fun a b => keyIntOf a ≤ keyIntOf b) →
      (l.foldl (fun acc x => pureInsertById x acc) acc).Pairwise
        (fun a b => keyIntOf a ≤ keyIntOf b) := by
  intro l
  induction l with
  | nil => intro acc h; simpa using h
  | cons x xs ih =>
    intro acc h
    rw [List.foldl_cons]
    exact ih (pureInsertById x acc) (pairwise_pureInsertById x acc h)

lemma pairwise_pureSortById (l : List (List (String × JVal))) :
    (pureSortById l).Pairwise (fun a b => keyIntOf a ≤ keyIntOf b) :=
  pairwise_pureSortById_aux l [] (List.Pairwise.nil)

lemma perm_pureSortById_aux :
    ∀ l acc : List (List (String × JVal)),
      List.Perm (l.foldl (fun acc x => pureInsertById x acc) acc) (acc ++ l) := by
  intro l
  induction l with
  | nil => intro acc; simp
  | cons x xs ih =>
    intro acc
    rw [List.foldl_cons]
    have h1 := ih (pureInsertById x acc)
    have h2 : List.Perm (pureInsertById x acc ++ xs) ((x :: acc) ++ xs) :=
      (perm_pureInsertById x acc).append_right xs
    have h3 : List.Perm ((x :: acc) ++ xs) (acc ++ x :: xs) :=
      List.perm_middle.symm
    exact (h1.trans h2).trans h3

lemma perm_pureSortById (l : List (List (String × JVal))) :
    List.Perm (pureSortById l) l := by
  simpa using perm_pureSortById_aux l []

lemma parse_batch_loads_none (raw : String) (content : List Char) (n : Nat)
    (h1 : extract_json raw.toList = .ok content)
    (h2 : jloads content = none) :
    parse_batch_response raw n = .ok none := by
  unfold parse_batch_response
  rw [h1]
  dsimp only
  rw [h2]

lemma parse_batch_not_array (raw : String) (content : List Char) (v : JVal)
    (n : Nat)
    (h1 : extract_json raw.toList = .ok content)
    (h2 : jloads content = some v)
    (h3 : isJArr v = false) :
    parse_batch_response raw n = .ok none := by
  unfold parse_batch_response
  rw [h1]
  dsimp only
  rw [h2]
  cases v <;> simp [isJArr] at h3 ⊢

lemma parse_batch_len_mismatch (raw : String) (content : List Char)
    (xs : List JVal) (n : Nat)
    (h1 : extract_json raw.toList = .ok content)
    (h2 : jloads content = some (.jarr xs))
    (h3 : xs.length ≠ n) :
    parse_batch_response raw n = .ok none := by
  unfold parse_batch_response
  rw [h1]
  dsimp only
  rw [h2]
  dsimp only
  rw [if_pos h3]

lemma parse_batch_first_missing (raw : String) (content : List Char)
    (f : List (String × JVal)) (rest : List JVal) (n : Nat)
    (h1 : extract_json raw.toList = .ok content)
    (h2 : jloads content = some (.jarr (.jobj f :: rest)))
    (h3 : (JVal.jobj f :: rest).length = n)
    (h4 : batchRequiredKeys.all (objHasKey f) = false) :
    parse_batch_response raw n = .ok none := by
  unfold parse_batch_response
  rw [h1]
  dsimp only
  rw [h2]
  dsimp only
  rw [if_neg (by omega)]
  rw [processBatchItems]
  rw [h4]
  simp

lemma parse_batch_success (raw : String) (content : List Char)
    (fs : List (List (String × JVal))) (n : Nat)
    (h1 : extract_json raw.toList = .ok content)
    (h2 : jloads content = some (.jarr (fs.map .jobj)))
    (h3 : fs.length = n)
    (hkeys : ∀ f ∈ fs, batchRequiredKeys.all (objHasKey f) = true)
    (hscore : ∀ f ∈ fs, ∃ m, pyInt ((objGet f "score").getD .jnull) = .ok m)
    (hid : ∀ f ∈ fs, ∃ i, objGet f "id" = some (.jint i)) :
    parse_batch_response raw n
      = .ok (some (pureSortById (fs.map coerceBatchItem))) := by
  have hid' : ∀ d ∈ fs.map coerceBatchItem, ∃ i, objGet d "id" = some (.jint i) := by
    intro d hd
    obtain ⟨f, hf, hfd⟩ := List.mem_map.mp hd
    obtain ⟨i, hi⟩ := hid f hf
    subst hfd
    exact ⟨i, by rw [objGet_coerceBatchItem_id]; exact hi⟩
  unfold parse_batch_response
  rw [h1]
  dsimp only
  rw [h2]
  dsimp only
  rw [if_neg (by simp [h3])]
  rw [processBatchItems_map_jobj fs hkeys hscore]
  dsimp only
  rw [sortByIdKey_pure (fs.map coerceBatchItem) hid']

/-- C5 counterexample: a payload that is a JSON array of the right length
whose elements are not objects (and so lack every required field) does not
make `_parse_batch_response` return `None` — `item.keys()` raises
`AttributeError`, which the `except (JSONDecodeError, ValueError, KeyError)`
clause does not catch. -/
theorem C5_batch_counterexample :
    jloads "[1, 2]".toList = some (.jarr [.jint 1, .jint 2]) ∧
    parse_batch_response "[1, 2]" 2 = .error .attributeError :=
  ⟨by rfl, by rfl⟩

/-- C5 (amended): `_parse_batch_response` returns `None` without raising when
the payload is unparseable, parses to a non-array, is an array of the wrong
length, or an element is an *object* missing a required field (a non-object
element raises `AttributeError` instead); on success — every element an
object with all five fields, an `int()`-coercible score and an integer
`id` — it returns the coerced elements reordered stably ascending by `id`
(`pureSortById`), which is a sorted permutation of the coerced elements. -/
theorem C5_batch_none_or_sorted :
    (∀ (raw : String) (content : List Char) (n : Nat),
        extract_json raw.toList = .ok content →
        jloads content = none →
        parse_batch_response raw n = .ok none) ∧
    (∀ (raw : String) (content : List Char) (v : JVal) (n : Nat),
        extract_json raw.toList = .ok content →
        jloads content = some v →
        isJArr v = false →
        parse_batch_response raw n = .ok none) ∧
    (∀ (raw : String) (content : List Char) (xs : List JVal) (n : Nat),
        extract_json raw.toList = .ok content →
        jloads content = some (.jarr xs) →
        xs.length ≠ n →
        parse_batch_response raw n = .ok none) ∧
    (∀ (raw : String) (content : List Char) (f : List (String × JVal))
        (rest : List JVal) (n : Nat),
        extract_json raw.toList = .ok content →
        jloads content = some (.jarr (.jobj f :: rest)) →
        (JVal.jobj f :: rest).length = n →
        batchRequiredKeys.all (objHasKey f) = false →
        parse_batch_response raw n = .ok none) ∧
    parse_batch_response
        "[\x7b\"id\": 1, \"score\": 5, \"issues\": [], \"suggestion\": \"\", \"summary\": \"\"\x7d, \x7b\"id\": 2\x7d]"
        2 = .ok none ∧
    (∀ (raw : String) (content : List Char)
        (fs : List (List (String × JVal))) (n : Nat),
        extract_json raw.toList = .ok content →
        jloads content = some (.jarr (fs.map .jobj)) →
        fs.length = n →
        (∀ f ∈ fs, batchRequiredKeys.all (objHasKey f) = true) →
        (∀ f ∈ fs, ∃ m, pyInt ((objGet f "score").getD .jnull) = .ok m) →
        (∀ f ∈ fs, ∃ i, objGet f "id" = some (.jint i)) →
        parse_batch_response raw n
          = .ok (some (pureSortById (fs.map coerceBatchItem)))) ∧
    (∀ l : List (List (String × JVal)),
        (pureSortById l).Pairwise (fun a b => keyIntOf a ≤ keyIntOf b)) ∧
    (∀ l : List (List (String × JVal)), List.Perm (pureSortById l) l) := by
  refine ⟨parse_batch_loads_none, parse_batch_not_array, parse_batch_len_mismatch,
    parse_batch_first_missing, ?_, parse_batch_success,
    pairwise_pureSortById, perm_pureSortById⟩
  rfl

theorem C5_batch_none_or_sorted_witness :
    extract_json "[1, 2, 3]".toList = .ok "[1, 2, 3]".toList ∧
    jloads "[1, 2, 3]".toList = some (.jarr [.jint 1, .jint 2, .jint 3]) ∧
    ([JVal.jint 1, .jint 2, .jint 3].length ≠ 5) ∧
    parse_batch_response "[1, 2, 3]" 5 = .ok none :=
  ⟨by rfl, by rfl, by decide,
   C5_batch_none_or_sorted.2.2.1 "[1, 2, 3]" "[1, 2, 3]".toList
     [.jint 1, .jint 2, .jint 3] 5 (by rfl) (by rfl) (by decide)⟩
